import Mathlib

/-!
Verification development for the HMM inference/training engine (hmm.py).

The development shallowly embeds the model-parameter layer, the training
loop, the pruning policy and the forward/backward/Viterbi recursions of the
source, together with the 2-state worked example that the test suite
(tests/test_hmm.py) fixes as the reference scenario.  Probability values are
embedded as rationals (every floating-point number is a rational); the
log-domain computations of the source are embedded over the reals, with the
numerically-stable logSumExp collaborator modelled by its documented
contract.
-/

/-! ## Model parameters and validation (source: _BaseHMM startprob/transmat, _GaussianHMM.means) -/

/-- Error taxonomy of the parameter setters.  The source raises the Python
class ValueError in every case; the spec names this taxonomy ValidationError
and distinguishes which invariant broke (length mismatch, non-unit sum,
shape mismatch, invalid covariance). -/
inductive ValidationError where
  | length : ValidationError
  | sum : ValidationError
  | shape : ValidationError
  | covariance : ValidationError

/-- Modelled from the spec: the tolerance comparison `almost_equal` is
imported from the sibling gmm module, which is absent from src; spec section
8 fixes the sum-to-one tolerance at 1e-8. -/
def almost_equal (a b : ℚ) : Bool :=
  decide (|a - b| < 1 / 100000000)

/-- The validated parameter store of _BaseHMM: state count plus the internal
log-space storage `_log_startprob` and `_log_transmat`. -/
structure Model where
  nstates : ℕ
  log_startprob : List ℝ
  log_transmat : List (List ℝ)

/-- Source `startprob` getter: `np.exp(self._log_startprob)`. -/
noncomputable def startprob_get (m : Model) : List ℝ :=
  m.log_startprob.map Real.exp

/-- Source `transmat` getter: `np.exp(self._log_transmat)`. -/
noncomputable def transmat_get (m : Model) : List (List ℝ) :=
  m.log_transmat.map (fun r => r.map Real.exp)

/-- Source `startprob` setter: length check first, then sum-to-one check,
then store `np.log` of the vector.  A raised error is an `Except.error`. -/
noncomputable def set_startprob (m : Model) (v : List ℚ) : Except ValidationError Model :=
  if v.length ≠ m.nstates then .error .length
  else if almost_equal v.sum 1 then
    .ok (Model.mk m.nstates (v.map (fun x => Real.log (Rat.cast x))) m.log_transmat)
  else .error .sum

/-- Exception semantics of a `startprob` assignment: on a raised error the
object is left exactly as it was (the store happens after all checks). -/
noncomputable def set_startprob_run (m : Model) (v : List ℚ) : Model :=
  match set_startprob m v with
  | .ok m2 => m2
  | .error _ => m

/-- Shape check of the transmat setter: `np.array(transmat).shape ==
(nstates, nstates)`. -/
def transmatShapeOk (m : Model) (t : List (List ℚ)) : Bool :=
  decide (t.length = m.nstates) && t.all (fun r => decide (r.length = m.nstates))

/-- Source `transmat` setter: shape check first, then each row must sum to
one, then store `np.log` of the matrix. -/
noncomputable def set_transmat (m : Model) (t : List (List ℚ)) : Except ValidationError Model :=
  if ¬ transmatShapeOk m t then .error .shape
  else if t.all (fun r => almost_equal r.sum 1) then
    .ok (Model.mk m.nstates m.log_startprob
      (t.map (fun r => r.map (fun x => Real.log (Rat.cast x)))))
  else .error .sum

/-- Exception semantics of a `transmat` assignment. -/
noncomputable def set_transmat_run (m : Model) (t : List (List ℚ)) : Model :=
  match set_transmat m t with
  | .ok m2 => m2
  | .error _ => m

/-- The Gaussian emission parameter store of _GaussianHMM relevant to the
means property: state count, dimensionality, and the stored means matrix
(no log transform is applied to means). -/
structure GModel where
  nstates : ℕ
  ndim : ℕ
  means : List (List ℚ)

/-- Shape check of the means setter: `np.array(means).shape == (nstates, ndim)`. -/
def meansShapeOk (g : GModel) (v : List (List ℚ)) : Bool :=
  decide (v.length = g.nstates) && v.all (fun r => decide (r.length = g.ndim))

/-- Source `means` setter: a pure shape check, then store a copy; no
value-level validation of the entries. -/
def set_means (g : GModel) (v : List (List ℚ)) : Except ValidationError GModel :=
  if meansShapeOk g v then .ok (GModel.mk g.nstates g.ndim v)
  else .error .shape

/-- Exception semantics of a `means` assignment. -/
def set_means_run (g : GModel) (v : List (List ℚ)) : GModel :=
  match set_means g v with
  | .ok g2 => g2
  | .error _ => g

/-- Source `means` getter: returns the stored matrix unchanged. -/
def means_get (g : GModel) : List (List ℚ) :=
  g.means

/-! ## The Baum-Welch training loop (source: _BaseHMM.train)

The E step (`self.eval`) and M step (`self._mstep`) are abstracted by an
oracle `ll : ℕ → ℚ` giving the total log-likelihood recorded at each
iteration; the loop control of `train` is embedded exactly: record the
likelihood, then break when `i > 0 and abs(logprob[-1] - logprob[-2]) <
thresh`, otherwise run the M step and continue. -/

/-- One pass of the training loop from iteration `i` with the given fuel
(remaining iterations of `xrange(iter)`). -/
def trainGo (ll : ℕ → ℚ) (thresh : ℚ) : ℕ → ℕ → List ℚ
  | _, 0 => []
  | i, Nat.succ fuel =>
    ll i :: (if 0 < i ∧ |ll i - ll (i - 1)| < thresh then [] else trainGo ll thresh (i + 1) fuel)

/-- Source `train`: returns the list of per-iteration log-likelihoods. -/
def trainLL (ll : ℕ → ℚ) (iter : ℕ) (thresh : ℚ) : List ℚ :=
  trainGo ll thresh 0 iter

/-- The convergence test of the source loop at iteration `j`: the absolute
change from the previous iteration is below the threshold. -/
def trainConverged (ll : ℕ → ℚ) (thresh : ℚ) (j : ℕ) : Bool :=
  decide (|ll j - ll (j - 1)| < thresh)

/-- Closed form of the number of iterations the loop performs: all `iter`
iterations, unless some first iteration `j ≥ 1` passes the absolute-change
convergence test, in which case iterations `0..j` run and the loop stops. -/
def trainStopLen (ll : ℕ → ℚ) (thresh : ℚ) (iter : ℕ) : ℕ :=
  match iter with
  | 0 => 0
  | Nat.succ f =>
    (match (List.range' 1 f).find? (trainConverged ll thresh) with
     | some j => j
     | none => f) + 1

/-! ## The pruning policy (source: _BaseHMM._prune_states)

`lattice_frame` is a list of per-state log-probabilities (rationals: every
float is a rational).  The numerically-stable logSumExp collaborator from
the gmm module is abstracted as a parameter `ls`; the beam offset lives in
`WithBot ℚ` so that `⊥` is the disabling value -inf. -/

/-- Modelled from the spec: the numeric floor constant ZEROLOGPROB of the
gmm module (absent from src); lattice values at or below it are treated as
log 0. -/
def ZEROLOGPROB : ℚ := -(10 ^ 200)

/-- Number of values of `vals` falling in bin `j` of a histogram of `nbins`
bins of width `w` starting at `lo` (the last bin also includes its right
edge, as np.histogram does). -/
def histCount (vals : List ℚ) (lo w : ℚ) (nbins j : ℕ) : ℕ :=
  (vals.filter (fun v =>
    decide (lo + j * w ≤ v) &&
      (decide (v < lo + (j + 1) * w) || decide (j + 1 = nbins)))).length

/-- Scanning the histogram from the highest bin downward, accumulate counts
until the cumulative count reaches `r`; the lower edge of the bin where this
happens is the rank threshold. -/
def rankEdge (vals : List ℚ) (lo w : ℚ) (nbins r : ℕ) : ℚ :=
  match (List.range nbins).find? (fun m =>
      decide (r ≤ ((List.range (m + 1)).map
        (fun t => histCount vals lo w nbins (nbins - 1 - t))).sum)) with
  | some m => lo + ((nbins - 1 - m : ℕ) : ℚ) * w
  | none => lo

/-- The rank-pruning threshold of the spec: histogram of the frame values
above the numeric floor, over 3x state count bins, ranging from (min of
those values) - 1 to the frame maximum. -/
def rankThresh (frame : List ℚ) (r : ℕ) : WithBot ℚ :=
  match (frame.filter (fun v => decide (ZEROLOGPROB < v))).min?, frame.max? with
  | some mn, some mx =>
    ((rankEdge (frame.filter (fun v => decide (ZEROLOGPROB < v))) (mn - 1)
      ((mx - (mn - 1)) / ((3 * frame.length : ℕ) : ℚ)) (3 * frame.length) r : ℚ) : WithBot ℚ)
  | _, _ => ⊥

/-- The effective pruning threshold: the beam threshold logSumExp(frame) +
beam, or with a rank limit the stricter (larger) of the beam and rank
thresholds. -/
def prune_threshold (ls : List ℚ → ℚ) (frame : List ℚ) (maxrank : Option ℕ)
    (beam : WithBot ℚ) : WithBot ℚ :=
  match maxrank with
  | none => ((ls frame : ℚ) : WithBot ℚ) + beam
  | some r => max (((ls frame : ℚ) : WithBot ℚ) + beam) (rankThresh frame r)

/-- Modelled from the spec: the pruning policy as specified (and as asserted
by the source tests): the list of indices of states whose lattice value
reaches the effective threshold.  The source function computes `state_idx`
the same way but is broken (see `prune_states_code`). -/
def prune_states (ls : List ℚ → ℚ) (frame : List ℚ) (maxrank : Option ℕ)
    (beam : WithBot ℚ) : List ℕ :=
  (List.range frame.length).filter (fun i =>
    decide (prune_threshold ls frame maxrank beam ≤ ((frame.getD i 0 : ℚ) : WithBot ℚ)))

/-- The source `_prune_states` as written: with a rank limit it raises
NameError (`tmp` is undefined in the `np.histogram` call), and in every
other case it computes `state_idx` but falls off the end of the function
without returning it, so the caller receives Python None.  Both outcomes
(exception, no value) are `none`. -/
def prune_states_code (ls : List ℚ → ℚ) (frame : List ℚ) (maxrank : Option ℕ)
    (beam : WithBot ℚ) : Option (List ℕ) :=
  match maxrank with
  | some _ => none
  | none =>
    let thresh : WithBot ℚ := ((ls frame : ℚ) : WithBot ℚ) + beam
    let _state_idx :=
      (List.range frame.length).filter (fun i => decide (thresh ≤ ((frame.getD i 0 : ℚ) : WithBot ℚ)))
    none

/-- The lattice frame of the source pruning tests: np.arange(10). -/
def demoFrame : List ℚ := [0, 1, 2, 3, 4, 5, 6, 7, 8, 9]

/-! ## The reference scenario (tests/test_hmm.py setup_example_hmm)

The classic 2-state forward-backward worked example: transition matrix
[[0.7, 0.3], [0.3, 0.7]], start distribution [0.5, 0.5], and the fixed
5-frame emission likelihood matrix [[0.9, 0.2], [0.9, 0.2], [0.1, 0.8],
[0.9, 0.2], [0.9, 0.2]].  Linear-probability-space lattices are computed
exactly over ℚ; the log-domain recursions of the source are stated over ℝ
and proved equal to the logs of the exact linear values. -/

/-- Start distribution [0.5, 0.5] of the reference scenario. -/
def startP : Fin 2 → ℚ := fun _ => 1 / 2

/-- Transition matrix [[0.7, 0.3], [0.3, 0.7]] of the reference scenario. -/
def transP : Fin 2 → Fin 2 → ℚ := fun i j => if i = j then 7 / 10 else 3 / 10

/-- The 5-frame emission likelihood matrix of the reference scenario, in
linear space (frames beyond index 4 are unused and set to 1). -/
def frameP : ℕ → Fin 2 → ℚ := fun n j =>
  if n = 2 then (if j = 0 then 1 / 10 else 4 / 5)
  else if n ≤ 4 then (if j = 0 then 9 / 10 else 1 / 5)
  else 1

/-- The forward lattice in linear space: exp of the log-domain forward
lattice that `_do_forward_pass` is specified to compute (no pruning: eval
defaults are maxrank None, beam -inf, under which all states stay active). -/
def fwdLin : ℕ → Fin 2 → ℚ
  | 0 => fun j => startP j * frameP 0 j
  | Nat.succ n => fun j => (∑ i, transP i j * fwdLin n i) * frameP (n + 1) j

/-- Total sequence likelihood of the reference scenario (linear space):
the sum of the last forward frame. -/
def totalLik : ℚ := ∑ j, fwdLin 4 j

/-- The backward lattice in linear space, indexed by distance from the last
frame: `bwdAux k` is the backward column at frame 4 - k. -/
def bwdAux : ℕ → Fin 2 → ℚ
  | 0 => fun _ => 1
  | Nat.succ k => fun i => ∑ j, transP i j * bwdAux k j * frameP (5 - (k + 1)) j

/-- The backward lattice in linear space at frame `n`. -/
def bwdLin (n : ℕ) : Fin 2 → ℚ := bwdAux (4 - n)

/-- The normalized state posteriors of the reference scenario:
forward times backward over the total likelihood. -/
def postLin (n : ℕ) (j : Fin 2) : ℚ := fwdLin n j * bwdLin n j / totalLik

/-- The Viterbi (max) lattice in linear space. -/
def vitLin : ℕ → Fin 2 → ℚ
  | 0 => fun j => startP j * frameP 0 j
  | Nat.succ n => fun j =>
    max (transP 0 j * vitLin n 0) (transP 1 j * vitLin n 1) * frameP (n + 1) j

/-- np.argmax over a 2-vector: the first index attaining the maximum. -/
def argmax2 (f : Fin 2 → ℚ) : Fin 2 := if f 0 < f 1 then 1 else 0

/-- The Viterbi backpointer: the predecessor state attaining the maximum in
the transition to state `j` at frame `n + 1`. -/
def bptr (n : ℕ) (j : Fin 2) : Fin 2 := argmax2 (fun i => transP i j * vitLin n i)

/-- Traceback: the state sequence from frame 0 up to frame `k`, ending in
state `s` at frame `k` and following backpointers downward. -/
def vitPathAux : ℕ → Fin 2 → List (Fin 2)
  | 0, s => [s]
  | Nat.succ k, s => vitPathAux k (bptr k s) ++ [s]

/-- The decoded Viterbi state sequence of the reference scenario: traceback
from argmax of the last max-lattice frame. -/
def vitPath : List (Fin 2) := vitPathAux 4 (argmax2 (vitLin 4))

/-- Sum of the last Viterbi max-lattice frame (linear space): the quantity
whose log the source forward pass returns in Viterbi mode, since its final
line applies logSumExp to the last lattice frame regardless of the
combination operator. -/
def vitTotal : ℚ := ∑ j, vitLin 4 j

/-- Joint probability of the tail of a state sequence starting at frame `n`
with previous state `prev`. -/
def pathProbAux : ℕ → Fin 2 → List (Fin 2) → ℚ
  | _, _, [] => 1
  | n, prev, s :: rest => transP prev s * frameP n s * pathProbAux (n + 1) s rest

/-- Joint probability (linear space) of a complete state sequence together
with the observations of the reference scenario. -/
def pathProb : List (Fin 2) → ℚ
  | [] => 1
  | s :: rest => startP s * frameP 0 s * pathProbAux 1 s rest

/-- The reference forward lattice (linear space) asserted by
test_do_forward_pass. -/
def fwdRef : Fin 5 → Fin 2 → ℚ := fun n j =>
  if n.val = 0 then (if j = 0 then 45 / 100 else 10 / 100)
  else if n.val = 1 then (if j = 0 then 3105 / 10000 else 410 / 10000)
  else if n.val = 2 then (if j = 0 then 230 / 10000 else 975 / 10000)
  else if n.val = 3 then (if j = 0 then 408 / 10000 else 150 / 10000)
  else (if j = 0 then 298 / 10000 else 46 / 10000)

/-- The reference backward lattice (linear space) asserted by
test_do_backward_pass. -/
def bwdRef : Fin 5 → Fin 2 → ℚ := fun n j =>
  if n.val = 0 then (if j = 0 then 661 / 10000 else 455 / 10000)
  else if n.val = 1 then (if j = 0 then 906 / 10000 else 1503 / 10000)
  else if n.val = 2 then (if j = 0 then 4593 / 10000 else 2437 / 10000)
  else if n.val = 3 then (if j = 0 then 6900 / 10000 else 4100 / 10000)
  else 1

/-- Modelled from the spec: the numerically-stable logSumExp collaborator of
the gmm module (absent from src), by its documented contract
log of the sum of exponentials. -/
noncomputable def logsumF (v : Fin 2 → ℝ) : ℝ := Real.log (∑ i, Real.exp (v i))

/-- Log-space start distribution (`_log_startprob` of the scenario). -/
noncomputable def startLP (j : Fin 2) : ℝ := Real.log (startP j)

/-- Log-space transition matrix (`_log_transmat` of the scenario). -/
noncomputable def transLP (i j : Fin 2) : ℝ := Real.log (transP i j)

/-- The frame log-likelihood matrix (`framelogprob` of the scenario). -/
noncomputable def frameLP (n : ℕ) (j : Fin 2) : ℝ := Real.log (frameP n j)

/-- The log-domain forward recursion of `_do_forward_pass` as specified:
first frame startLogProb + frameLogLik[0], then logSumExp combination over
predecessors plus the frame log-likelihood. -/
noncomputable def fwdLog : ℕ → Fin 2 → ℝ
  | 0 => fun j => startLP j + frameLP 0 j
  | Nat.succ n => fun j => logsumF (fun i => transLP i j + fwdLog n i) + frameLP (n + 1) j

/-- Total sequence log-likelihood: logSumExp of the last forward frame. -/
noncomputable def totalLogLik : ℝ := logsumF (fwdLog 4)

/-- The log-domain backward recursion of `_do_backward_pass` as specified,
indexed by distance from the last frame: `bwdLogAux k` is the backward
column at frame 4 - k; the boundary column is 0 (log 1). -/
noncomputable def bwdLogAux : ℕ → Fin 2 → ℝ
  | 0 => fun _ => 0
  | Nat.succ k => fun i =>
    logsumF (fun j => transLP i j + bwdLogAux k j + frameLP (5 - (k + 1)) j)

/-- The log-domain backward lattice at frame `n`. -/
noncomputable def bwdLog (n : ℕ) : Fin 2 → ℝ := bwdLogAux (4 - n)

/-- The log-domain Viterbi recursion: the forward recursion with max as the
combination operator. -/
noncomputable def vitLog : ℕ → Fin 2 → ℝ
  | 0 => fun j => startLP j + frameLP 0 j
  | Nat.succ n => fun j =>
    max (transLP 0 j + vitLog n 0) (transLP 1 j + vitLog n 1) + frameLP (n + 1) j

/-- The scalar the source Viterbi pass returns: logSumExp applied to the
last max-lattice frame. -/
noncomputable def vitLogTotal : ℝ := logsumF (vitLog 4)

/-! ## Helper lemmas: positivity and the exp link between the log-domain
recursions and the exact linear-space lattices -/

lemma startP_pos (j : Fin 2) : 0 < startP j := by
  norm_num [startP]

lemma transP_pos (i j : Fin 2) : 0 < transP i j := by
  unfold transP; split_ifs <;> norm_num

lemma frameP_pos (n : ℕ) (j : Fin 2) : 0 < frameP n j := by
  unfold frameP; split_ifs <;> norm_num

lemma fwdLin_pos (n : ℕ) (j : Fin 2) : 0 < fwdLin n j := by
  induction n generalizing j with
  | zero => exact mul_pos (startP_pos j) (frameP_pos 0 j)
  | succ n ih =>
    refine mul_pos (Finset.sum_pos (fun i _ => mul_pos (transP_pos i j) (ih i)) ?_) (frameP_pos (n + 1) j)
    exact Finset.univ_nonempty

lemma bwdAux_pos (k : ℕ) (i : Fin 2) : 0 < bwdAux k i := by
  induction k generalizing i with
  | zero => norm_num [bwdAux]
  | succ k ih =>
    refine Finset.sum_pos (fun j _ => mul_pos (mul_pos (transP_pos i j) (ih j)) (frameP_pos _ j)) ?_
    exact Finset.univ_nonempty

lemma vitLin_pos (n : ℕ) (j : Fin 2) : 0 < vitLin n j := by
  induction n generalizing j with
  | zero => exact mul_pos (startP_pos j) (frameP_pos 0 j)
  | succ n ih =>
    exact mul_pos (lt_max_of_lt_left (mul_pos (transP_pos 0 j) (ih 0))) (frameP_pos (n + 1) j)

lemma exp_logsumF (v : Fin 2 → ℝ) : Real.exp (logsumF v) = Real.exp (v 0) + Real.exp (v 1) := by
  unfold logsumF
  rw [Real.exp_log (by positivity), Fin.sum_univ_two]

lemma fwdLog_exp (n : ℕ) : ∀ j, Real.exp (fwdLog n j) = ((fwdLin n j : ℚ) : ℝ) := by
  induction n with
  | zero =>
    intro j
    show Real.exp (startLP j + frameLP 0 j) = _
    unfold startLP frameLP
    rw [Real.exp_add, Real.exp_log (by exact_mod_cast startP_pos j),
      Real.exp_log (by exact_mod_cast frameP_pos 0 j)]
    show _ = ((startP j * frameP 0 j : ℚ) : ℝ)
    push_cast
    ring
  | succ n ih =>
    intro j
    show Real.exp (logsumF (fun i => transLP i j + fwdLog n i) + frameLP (n + 1) j) = _
    rw [Real.exp_add, exp_logsumF]
    unfold transLP frameLP
    rw [Real.exp_add, Real.exp_add, ih 0, ih 1,
      Real.exp_log (by exact_mod_cast transP_pos 0 j),
      Real.exp_log (by exact_mod_cast transP_pos 1 j),
      Real.exp_log (by exact_mod_cast frameP_pos (n + 1) j)]
    show _ = (((∑ i, transP i j * fwdLin n i) * frameP (n + 1) j : ℚ) : ℝ)
    push_cast [Fin.sum_univ_two]
    ring

lemma bwdLogAux_exp (k : ℕ) : ∀ i, Real.exp (bwdLogAux k i) = ((bwdAux k i : ℚ) : ℝ) := by
  induction k with
  | zero =>
    intro i
    show Real.exp 0 = ((bwdAux 0 i : ℚ) : ℝ)
    norm_num [bwdAux]
  | succ k ih =>
    intro i
    show Real.exp (logsumF (fun j => transLP i j + bwdLogAux k j + frameLP (5 - (k + 1)) j)) = _
    rw [exp_logsumF]
    unfold transLP frameLP
    rw [Real.exp_add, Real.exp_add, Real.exp_add, Real.exp_add, ih 0, ih 1,
      Real.exp_log (by exact_mod_cast transP_pos i 0),
      Real.exp_log (by exact_mod_cast frameP_pos (5 - (k + 1)) 0),
      Real.exp_log (by exact_mod_cast transP_pos i 1),
      Real.exp_log (by exact_mod_cast frameP_pos (5 - (k + 1)) 1)]
    show _ = ((∑ j, transP i j * bwdAux k j * frameP (5 - (k + 1)) j : ℚ) : ℝ)
    push_cast [Fin.sum_univ_two]
    ring

lemma bwdLog_exp (n : ℕ) (j : Fin 2) : Real.exp (bwdLog n j) = ((bwdLin n j : ℚ) : ℝ) := by
  unfold bwdLog bwdLin
  exact bwdLogAux_exp (4 - n) j

lemma vitLog_exp (n : ℕ) : ∀ j, Real.exp (vitLog n j) = ((vitLin n j : ℚ) : ℝ) := by
  induction n with
  | zero =>
    intro j
    show Real.exp (startLP j + frameLP 0 j) = _
    unfold startLP frameLP
    rw [Real.exp_add, Real.exp_log (by exact_mod_cast startP_pos j),
      Real.exp_log (by exact_mod_cast frameP_pos 0 j)]
    show _ = ((startP j * frameP 0 j : ℚ) : ℝ)
    push_cast
    ring
  | succ n ih =>
    intro j
    show Real.exp (max (transLP 0 j + vitLog n 0) (transLP 1 j + vitLog n 1) + frameLP (n + 1) j) = _
    rw [Real.exp_add, Real.exp_strictMono.monotone.map_max, Real.exp_add, Real.exp_add,
      ih 0, ih 1]
    unfold transLP frameLP
    rw [Real.exp_log (by exact_mod_cast transP_pos 0 j),
      Real.exp_log (by exact_mod_cast transP_pos 1 j),
      Real.exp_log (by exact_mod_cast frameP_pos (n + 1) j)]
    show _ = ((max (transP 0 j * vitLin n 0) (transP 1 j * vitLin n 1) * frameP (n + 1) j : ℚ) : ℝ)
    push_cast
    ring

lemma exp_totalLogLik : Real.exp totalLogLik = ((totalLik : ℚ) : ℝ) := by
  unfold totalLogLik
  rw [exp_logsumF, fwdLog_exp 4 0, fwdLog_exp 4 1]
  unfold totalLik
  push_cast [Fin.sum_univ_two]
  ring

lemma exp_vitLogTotal : Real.exp vitLogTotal = ((vitTotal : ℚ) : ℝ) := by
  unfold vitLogTotal
  rw [exp_logsumF, vitLog_exp 4 0, vitLog_exp 4 1]
  unfold vitTotal
  push_cast [Fin.sum_univ_two]
  ring

/-! ## Helper lemmas: rational bounds on the exponential, used to certify
the log-likelihood scalars of the reference scenario -/

lemma exp_taylor_ub (x : ℝ) (h0 : 0 ≤ x) (h1 : x ≤ 1) :
    Real.exp x ≤ (∑ m ∈ Finset.range 9, x ^ m / (Nat.factorial m : ℝ)) + x ^ 9 * (10 / 3265920) := by
  have hb := Real.exp_bound (x := x) (by rw [abs_of_nonneg h0]; exact h1) (n := 9) (by norm_num)
  rw [abs_of_nonneg h0] at hb
  have h2 := (abs_le.mp hb).2
  have h3 : ((Nat.succ 9 : ℕ) : ℝ) / ((Nat.factorial 9 : ℕ) : ℝ) / 9 = 10 / 3265920 := by
    norm_num [Nat.factorial]
  have h4 : x ^ 9 * (((Nat.succ 9 : ℕ) : ℝ) / (((Nat.factorial 9 : ℕ) : ℝ) * 9)) =
      x ^ 9 * (10 / 3265920) := by
    norm_num [Nat.factorial]
  linarith [h2, h4.le, h4.ge]

lemma exp_taylor_lb (x : ℝ) (h0 : 0 ≤ x) (h1 : x ≤ 1) :
    (∑ m ∈ Finset.range 9, x ^ m / (Nat.factorial m : ℝ)) - x ^ 9 * (10 / 3265920) ≤ Real.exp x := by
  have hb := Real.exp_bound (x := x) (by rw [abs_of_nonneg h0]; exact h1) (n := 9) (by norm_num)
  rw [abs_of_nonneg h0] at hb
  have h2 := (abs_le.mp hb).1
  have h4 : x ^ 9 * (((Nat.succ 9 : ℕ) : ℝ) / (((Nat.factorial 9 : ℕ) : ℝ) * 9)) =
      x ^ 9 * (10 / 3265920) := by
    norm_num [Nat.factorial]
  linarith [h2, h4.le, h4.ge]

lemma exp_37255_lb : (14514 : ℝ) / 10000 < Real.exp (7451 / 20000) := by
  have h := exp_taylor_lb (7451 / 20000) (by norm_num) (by norm_num)
  have h2 : (14514 : ℝ) / 10000 <
      (∑ m ∈ Finset.range 9, ((7451 : ℝ) / 20000) ^ m / (Nat.factorial m : ℝ)) -
        ((7451 : ℝ) / 20000) ^ 9 * (10 / 3265920) := by
    norm_num [Finset.sum_range_succ, Nat.factorial]
  linarith

lemma exp_37245_ub : Real.exp (7449 / 20000) < (14513 : ℝ) / 10000 := by
  have h := exp_taylor_ub (7449 / 20000) (by norm_num) (by norm_num)
  have h2 : (∑ m ∈ Finset.range 9, ((7449 : ℝ) / 20000) ^ m / (Nat.factorial m : ℝ)) +
      ((7449 : ℝ) / 20000) ^ 9 * (10 / 3265920) < (14513 : ℝ) / 10000 := by
    norm_num [Finset.sum_range_succ, Nat.factorial]
  linarith

lemma exp_35005_lb : (14191 : ℝ) / 10000 < Real.exp (7001 / 20000) := by
  have h := exp_taylor_lb (7001 / 20000) (by norm_num) (by norm_num)
  have h2 : (14191 : ℝ) / 10000 <
      (∑ m ∈ Finset.range 9, ((7001 : ℝ) / 20000) ^ m / (Nat.factorial m : ℝ)) -
        ((7001 : ℝ) / 20000) ^ 9 * (10 / 3265920) := by
    norm_num [Finset.sum_range_succ, Nat.factorial]
  linarith

lemma exp_34995_ub : Real.exp (6999 / 20000) < (1419020 : ℝ) / 1000000 := by
  have h := exp_taylor_ub (6999 / 20000) (by norm_num) (by norm_num)
  have h2 : (∑ m ∈ Finset.range 9, ((6999 : ℝ) / 20000) ^ m / (Nat.factorial m : ℝ)) +
      ((6999 : ℝ) / 20000) ^ 9 * (10 / 3265920) < (1419020 : ℝ) / 1000000 := by
    norm_num [Finset.sum_range_succ, Nat.factorial]
  linarith

lemma exp_04_ub : Real.exp (2 / 5) < (14919 : ℝ) / 10000 := by
  have h := exp_taylor_ub (2 / 5) (by norm_num) (by norm_num)
  have h2 : (∑ m ∈ Finset.range 9, ((2 : ℝ) / 5) ^ m / (Nat.factorial m : ℝ)) +
      ((2 : ℝ) / 5) ^ 9 * (10 / 3265920) < (14919 : ℝ) / 10000 := by
    norm_num [Finset.sum_range_succ, Nat.factorial]
  linarith

lemma exp_three_lb : (2008553691 : ℝ) / 100000000 < Real.exp 3 := by
  have h3 : Real.exp 3 = Real.exp 1 ^ 3 := by
    rw [← Real.exp_nat_mul]; norm_num
  have hg := Real.exp_one_gt_d9
  calc (2008553691 : ℝ) / 100000000 < 2.7182818283 ^ 3 := by norm_num
    _ < Real.exp 1 ^ 3 := pow_lt_pow_left₀ hg (by norm_num) (by norm_num)
    _ = Real.exp 3 := h3.symm

lemma exp_three_ub : Real.exp 3 < (2008553693 : ℝ) / 100000000 := by
  have h3 : Real.exp 3 = Real.exp 1 ^ 3 := by
    rw [← Real.exp_nat_mul]; norm_num
  have hl := Real.exp_one_lt_d9
  calc Real.exp 3 = Real.exp 1 ^ 3 := h3
    _ < 2.7182818286 ^ 3 := pow_lt_pow_left₀ hl (Real.exp_pos 1).le (by norm_num)
    _ < (2008553693 : ℝ) / 100000000 := by norm_num

lemma exp_four_lb : (5459815001 : ℝ) / 100000000 < Real.exp 4 := by
  have h4 : Real.exp 4 = Real.exp 1 ^ 4 := by
    rw [← Real.exp_nat_mul]; norm_num
  have hg := Real.exp_one_gt_d9
  calc (5459815001 : ℝ) / 100000000 < 2.7182818283 ^ 4 := by norm_num
    _ < Real.exp 1 ^ 4 := pow_lt_pow_left₀ hg (by norm_num) (by norm_num)
    _ = Real.exp 4 := h4.symm

lemma exp_four_ub : Real.exp 4 < (5459815005 : ℝ) / 100000000 := by
  have h4 : Real.exp 4 = Real.exp 1 ^ 4 := by
    rw [← Real.exp_nat_mul]; norm_num
  have hl := Real.exp_one_lt_d9
  calc Real.exp 4 = Real.exp 1 ^ 4 := h4
    _ < 2.7182818286 ^ 4 := pow_lt_pow_left₀ hl (Real.exp_pos 1).le (by norm_num)
    _ < (5459815005 : ℝ) / 100000000 := by norm_num

/-! ## Helper lemmas: exact values of the reference-scenario lattices -/

lemma totalLik_val : totalLik = 68607401 / 2000000000 := by
  norm_num [totalLik, fwdLin, startP, transP, frameP, Fin.sum_univ_two]

lemma vitTotal_val : vitTotal = 25814376 / 2000000000 := by
  norm_num [vitTotal, vitLin, startP, transP, frameP, Fin.sum_univ_two]

lemma totalLogLik_eq_log : totalLogLik = Real.log ((68607401 : ℝ) / 2000000000) := by
  have h := exp_totalLogLik
  rw [totalLik_val] at h
  have h2 : Real.exp totalLogLik = (68607401 : ℝ) / 2000000000 := by rw [h]; norm_num
  rw [← h2, Real.log_exp]

lemma vitLogTotal_eq_log : vitLogTotal = Real.log ((25814376 : ℝ) / 2000000000) := by
  have h := exp_vitLogTotal
  rw [vitTotal_val] at h
  have h2 : Real.exp vitLogTotal = (25814376 : ℝ) / 2000000000 := by rw [h]; norm_num
  rw [← h2, Real.log_exp]

lemma totalLogLik_bounds : |totalLogLik + 33725 / 10000| < 1 / 20000 := by
  rw [totalLogLik_eq_log]
  have hv : (0 : ℝ) < (68607401 : ℝ) / 2000000000 := by norm_num
  have hsplit1 : Real.exp (67451 / 20000) = Real.exp 3 * Real.exp (7451 / 20000) := by
    rw [← Real.exp_add]; norm_num
  have hsplit2 : Real.exp (67449 / 20000) = Real.exp 3 * Real.exp (7449 / 20000) := by
    rw [← Real.exp_add]; norm_num
  have hB : (2008553691 : ℝ) / 100000000 * (14514 / 10000) < Real.exp (67451 / 20000) := by
    rw [hsplit1]
    exact mul_lt_mul'' exp_three_lb exp_37255_lb (by norm_num) (by norm_num)
  have hC : Real.exp (67449 / 20000) < (2008553693 : ℝ) / 100000000 * (14513 / 10000) := by
    rw [hsplit2]
    exact mul_lt_mul'' exp_three_ub exp_37245_ub (Real.exp_pos 3).le (Real.exp_pos _).le
  rw [abs_lt]
  constructor
  · rw [show -(1 / 20000 : ℝ) < Real.log (68607401 / 2000000000) + 33725 / 10000 ↔
        -(67451 / 20000 : ℝ) < Real.log (68607401 / 2000000000) from by constructor <;> intro <;> linarith]
    rw [Real.lt_log_iff_exp_lt hv, Real.exp_neg]
    calc (Real.exp (67451 / 20000))⁻¹
        < ((2008553691 : ℝ) / 100000000 * (14514 / 10000))⁻¹ :=
          inv_strictAnti₀ (by norm_num) hB
      _ < (68607401 : ℝ) / 2000000000 := by norm_num
  · rw [show Real.log (68607401 / 2000000000) + 33725 / 10000 < (1 / 20000 : ℝ) ↔
        Real.log (68607401 / 2000000000) < -(67449 / 20000 : ℝ) from by constructor <;> intro <;> linarith]
    rw [Real.log_lt_iff_lt_exp hv, Real.exp_neg]
    calc (68607401 : ℝ) / 2000000000
        < ((2008553693 : ℝ) / 100000000 * (14513 / 10000))⁻¹ := by norm_num
      _ < (Real.exp (67449 / 20000))⁻¹ := inv_strictAnti₀ (Real.exp_pos _) hC

lemma vitLogTotal_bounds : |vitLogTotal + 43500 / 10000| < 1 / 20000 := by
  rw [vitLogTotal_eq_log]
  have hv : (0 : ℝ) < (25814376 : ℝ) / 2000000000 := by norm_num
  have hsplit1 : Real.exp (87001 / 20000) = Real.exp 4 * Real.exp (7001 / 20000) := by
    rw [← Real.exp_add]; norm_num
  have hsplit2 : Real.exp (86999 / 20000) = Real.exp 4 * Real.exp (6999 / 20000) := by
    rw [← Real.exp_add]; norm_num
  have hB : (5459815001 : ℝ) / 100000000 * (14191 / 10000) < Real.exp (87001 / 20000) := by
    rw [hsplit1]
    exact mul_lt_mul'' exp_four_lb exp_35005_lb (by norm_num) (by norm_num)
  have hC : Real.exp (86999 / 20000) < (5459815005 : ℝ) / 100000000 * (1419020 / 1000000) := by
    rw [hsplit2]
    exact mul_lt_mul'' exp_four_ub exp_34995_ub (Real.exp_pos 4).le (Real.exp_pos _).le
  rw [abs_lt]
  constructor
  · rw [show -(1 / 20000 : ℝ) < Real.log (25814376 / 2000000000) + 43500 / 10000 ↔
        -(87001 / 20000 : ℝ) < Real.log (25814376 / 2000000000) from by constructor <;> intro <;> linarith]
    rw [Real.lt_log_iff_exp_lt hv, Real.exp_neg]
    calc (Real.exp (87001 / 20000))⁻¹
        < ((5459815001 : ℝ) / 100000000 * (14191 / 10000))⁻¹ :=
          inv_strictAnti₀ (by norm_num) hB
      _ < (25814376 : ℝ) / 2000000000 := by norm_num
  · rw [show Real.log (25814376 / 2000000000) + 43500 / 10000 < (1 / 20000 : ℝ) ↔
        Real.log (25814376 / 2000000000) < -(86999 / 20000 : ℝ) from by constructor <;> intro <;> linarith]
    rw [Real.log_lt_iff_lt_exp hv, Real.exp_neg]
    calc (25814376 : ℝ) / 2000000000
        < ((5459815005 : ℝ) / 100000000 * (1419020 / 1000000))⁻¹ := by norm_num
      _ < (Real.exp (86999 / 20000))⁻¹ := inv_strictAnti₀ (Real.exp_pos _) hC

lemma pathProb_val : pathProb [0, 0, 1, 0, 0] = 11573604 / 1000000000 := by
  norm_num [pathProb, pathProbAux, startP, transP, frameP]

lemma pathProb_log_lt : Real.log ((pathProb [0, 0, 1, 0, 0] : ℚ) : ℝ) < -(22 / 5) := by
  rw [pathProb_val]
  have hv : (0 : ℝ) < ((11573604 / 1000000000 : ℚ) : ℝ) := by norm_num
  have hsplit : Real.exp (22 / 5) = Real.exp 4 * Real.exp (2 / 5) := by
    rw [← Real.exp_add]; norm_num
  have hC : Real.exp (22 / 5) < (5459815005 : ℝ) / 100000000 * (14919 / 10000) := by
    rw [hsplit]
    exact mul_lt_mul'' exp_four_ub exp_04_ub (Real.exp_pos 4).le (Real.exp_pos _).le
  rw [Real.log_lt_iff_lt_exp hv, Real.exp_neg]
  calc ((11573604 / 1000000000 : ℚ) : ℝ)
      < ((5459815005 : ℝ) / 100000000 * (14919 / 10000))⁻¹ := by norm_num
    _ < (Real.exp (22 / 5))⁻¹ := inv_strictAnti₀ (Real.exp_pos _) hC

lemma fwdLin_close_ref : ∀ n : Fin 5, ∀ j : Fin 2, |fwdLin n.val j - fwdRef n j| < 1 / 10000 := by
  intro n j
  fin_cases n <;> fin_cases j <;>
    norm_num [fwdLin, fwdRef, startP, transP, frameP, Fin.sum_univ_two, abs_lt]

lemma bwdLin_close_ref : ∀ n : Fin 5, ∀ j : Fin 2, |bwdLin n.val j - bwdRef n j| < 1 / 10000 := by
  intro n j
  fin_cases n <;> fin_cases j <;>
    norm_num [bwdLin, bwdAux, bwdRef, transP, frameP, Fin.sum_univ_two, abs_lt]

lemma fwd_bwd_rowsum : ∀ n : Fin 5, (∑ j, fwdLin n.val j * bwdLin n.val j) = totalLik := by
  intro n
  fin_cases n <;>
    norm_num [fwdLin, bwdLin, bwdAux, totalLik, startP, transP, frameP, Fin.sum_univ_two]

lemma totalLik_pos : 0 < totalLik := by
  rw [totalLik_val]; norm_num

lemma vitPath_val : vitPath = [0, 0, 1, 0, 0] := by
  norm_num [vitPath, vitPathAux, bptr, argmax2, vitLin, startP, transP, frameP, max_def]

lemma bwdLog_boundary (j : Fin 2) : bwdLog 4 j = 0 := rfl

lemma bwdLog_step (n : ℕ) (h : n < 4) (i : Fin 2) :
    bwdLog n i = logsumF (fun j => transLP i j + bwdLog (n + 1) j + frameLP (n + 1) j) := by
  have h1 : 4 - n = (3 - n) + 1 := by omega
  have h2 : 5 - ((3 - n) + 1) = n + 1 := by omega
  have h3 : 4 - (n + 1) = 3 - n := by omega
  unfold bwdLog
  rw [h1, h3]
  show logsumF (fun j => transLP i j + bwdLogAux (3 - n) j + frameLP (5 - ((3 - n) + 1)) j) = _
  rw [h2]

/-! ## Helper lemmas: the training loop -/

lemma trainGo_char (ll : ℕ → ℚ) (thresh : ℚ) :
    ∀ fuel i, 1 ≤ i → trainGo ll thresh i fuel =
      (List.range' i (match (List.range' i fuel).find? (trainConverged ll thresh) with
        | some j => j + 1 - i
        | none => fuel)).map ll := by
  intro fuel
  induction fuel with
  | zero => intro i _; simp [trainGo]
  | succ fuel ih =>
    intro i hi
    show ll i :: _ = _
    rw [List.range'_succ]
    by_cases hc : trainConverged ll thresh i = true
    · have hcond : (0 < i ∧ |ll i - ll (i - 1)| < thresh) := ⟨hi, of_decide_eq_true hc⟩
      rw [if_pos hcond, List.find?_cons_of_pos _ hc]
      show _ = (List.range' i (i + 1 - i)).map ll
      have h1 : i + 1 - i = 1 := by omega
      rw [h1]
      simp
    · have hcond : ¬ (0 < i ∧ |ll i - ll (i - 1)| < thresh) := by
        intro hx
        exact hc (decide_eq_true hx.2)
      rw [if_neg hcond, List.find?_cons_of_neg _ hc, ih (i + 1) (by omega)]
      cases hfind : (List.range' (i + 1) fuel).find? (trainConverged ll thresh) with
      | none =>
        show ll i :: (List.range' (i + 1) fuel).map ll = (List.range' i (fuel + 1)).map ll
        rw [List.range'_succ]
        simp
      | some j =>
        have hj : i + 1 ≤ j := by
          have := List.mem_range'_1.mp (List.mem_of_find?_eq_some hfind)
          omega
        show ll i :: (List.range' (i + 1) (j + 1 - (i + 1))).map ll =
          (List.range' i (j + 1 - i)).map ll
        have hlen : j + 1 - i = (j + 1 - (i + 1)) + 1 := by omega
        rw [hlen, List.range'_succ]
        simp

/-! ## Helper lemmas: the pruning policy -/

lemma prune_states_all (ls : List ℚ → ℚ) (frame : List ℚ) :
    prune_states ls frame none ⊥ = List.range frame.length := by
  unfold prune_states
  refine List.filter_eq_self.mpr ?_
  intro a _
  simp [prune_threshold, WithBot.add_bot]

lemma prune_states_rank_one : prune_states (fun _ => 0) demoFrame (some 1) ⊥ = [9] := by
  have hvals : demoFrame.filter (fun v => decide (ZEROLOGPROB < v)) = demoFrame := by
    refine List.filter_eq_self.mpr ?_
    intro a ha
    fin_cases ha <;> norm_num [ZEROLOGPROB]
  have hmin : demoFrame.min? = some 0 := by
    norm_num [demoFrame, List.min?, List.foldl, min_def]
  have hmax : demoFrame.max? = some 9 := by
    norm_num [demoFrame, List.max?, List.foldl, max_def]
  have hlen : demoFrame.length = 10 := by norm_num [demoFrame]
  have h29 : histCount demoFrame (-1) (1 / 3) 30 29 = 1 := by
    norm_num [histCount, demoFrame, List.filter]
  have hedge : rankEdge demoFrame (-1) (1 / 3) 30 1 = 26 / 3 := by
    unfold rankEdge
    have hrange : List.range 30 = 0 :: List.range' 1 29 := by
      rw [List.range_eq_range', List.range'_succ]
    rw [hrange, List.find?_cons_of_pos]
    · norm_num
    · norm_num [List.range_succ, h29]
  have hthresh : rankThresh demoFrame 1 = ((26 / 3 : ℚ) : WithBot ℚ) := by
    unfold rankThresh
    rw [hvals, hmin, hmax]
    show ((rankEdge demoFrame (0 - 1) ((9 - (0 - 1)) / ((3 * demoFrame.length : ℕ) : ℚ))
      (3 * demoFrame.length) 1 : ℚ) : WithBot ℚ) = _
    rw [hlen]
    norm_num [hedge]
  have hpt : prune_threshold (fun _ => 0) demoFrame (some 1) ⊥ = ((26 / 3 : ℚ) : WithBot ℚ) := by
    simp only [prune_threshold]
    rw [hthresh, WithBot.add_bot]
    exact bot_sup_eq _
  unfold prune_states
  rw [hlen]
  rw [List.filter_congr (q := fun i => decide ((26 / 3 : ℚ) ≤ demoFrame.getD i 0)) ?_]
  · norm_num [demoFrame, List.range_succ, List.filter, List.getD]
  · intro i _
    rw [hpt]
    simp [WithBot.coe_le_coe]

/-! ## Claim theorems -/

/-- C1: On the reference scenario, the posteriors specified for eval satisfy
posterior[n, s] = exp(forward[n,s] + backward[n,s] - totalLogLikelihood) and
every posterior row sums to 1; whereas the unnormalized quantity the source
actually forms (the normalizer is passed as the out argument of np.exp, so
it is never subtracted) has every row summing to the total likelihood,
which is below 1. -/
theorem eval_posteriors_code_bug :
    (∀ n : Fin 5, ∀ j : Fin 2,
      Real.exp (fwdLog n.val j + bwdLog n.val j - totalLogLik) = ((postLin n.val j : ℚ) : ℝ)) ∧
    (∀ n : Fin 5, (∑ j, postLin n.val j) = 1) ∧
    (∀ n : Fin 5, (∑ j, Real.exp (fwdLog n.val j + bwdLog n.val j)) = ((totalLik : ℚ) : ℝ)) ∧
    totalLik < 1 := by
  refine ⟨?_, ?_, ?_, ?_⟩
  · intro n j
    rw [Real.exp_sub, Real.exp_add, fwdLog_exp, bwdLog_exp, exp_totalLogLik]
    unfold postLin
    push_cast
    ring
  · intro n
    unfold postLin
    rw [← Finset.sum_div, fwd_bwd_rowsum n, div_self (ne_of_gt totalLik_pos)]
  · intro n
    have h := fwd_bwd_rowsum n
    rw [Fin.sum_univ_two] at h
    rw [Fin.sum_univ_two, Real.exp_add, Real.exp_add, fwdLog_exp, fwdLog_exp,
      bwdLog_exp, bwdLog_exp]
    exact_mod_cast h
  · rw [totalLik_val]
    norm_num

/-- C2: The forward pass initializes forward[0] = startLogProb +
frameLogLik[0], recurs by logSumExp over predecessors plus the frame
log-likelihood, and on the reference scenario its lattice matches the
reference values in linear space within 1e-4, with total log-likelihood
within 5e-5 of -3.3725. -/
theorem forward_pass_code_bug :
    (∀ j : Fin 2, fwdLog 0 j = startLP j + frameLP 0 j) ∧
    (∀ n : ℕ, ∀ j : Fin 2,
      fwdLog (n + 1) j = logsumF (fun i => transLP i j + fwdLog n i) + frameLP (n + 1) j) ∧
    (∀ n : Fin 5, ∀ j : Fin 2, Real.exp (fwdLog n.val j) = ((fwdLin n.val j : ℚ) : ℝ)) ∧
    (∀ n : Fin 5, ∀ j : Fin 2, |fwdLin n.val j - fwdRef n j| < 1 / 10000) ∧
    |totalLogLik + 33725 / 10000| < 1 / 20000 :=
  ⟨fun _ => rfl, fun _ _ => rfl, fun n j => fwdLog_exp n.val j, fwdLin_close_ref,
    totalLogLik_bounds⟩

/-- C3: On the reference scenario the decoded Viterbi state sequence is
[0, 0, 1, 0, 0]; the scalar the pass returns (logSumExp of the final
max-lattice frame) is within 5e-5 of -4.3500; and this scalar is not the
joint log-probability of the decoded path, which is below -4.4. -/
theorem viterbi_code_bug :
    vitPath = [0, 0, 1, 0, 0] ∧
    (∀ n : Fin 5, ∀ j : Fin 2, Real.exp (vitLog n.val j) = ((vitLin n.val j : ℚ) : ℝ)) ∧
    |vitLogTotal + 43500 / 10000| < 1 / 20000 ∧
    Real.log ((pathProb [0, 0, 1, 0, 0] : ℚ) : ℝ) < -(22 / 5) :=
  ⟨vitPath_val, fun n j => vitLog_exp n.val j, vitLogTotal_bounds, pathProb_log_lt⟩

/-- C4: The backward pass sets backward[last] = 0 (log 1), recurs downward
with backward[n, source] = logSumExp over targets of (transitionLogProb +
backward[n+1] + frameLogLik[n+1]), and on the reference scenario its
lattice matches the reference values in linear space within 1e-4. -/
theorem backward_pass_code_bug :
    (∀ j : Fin 2, bwdLog 4 j = 0) ∧
    (∀ n : ℕ, n < 4 → ∀ i : Fin 2,
      bwdLog n i = logsumF (fun j => transLP i j + bwdLog (n + 1) j + frameLP (n + 1) j)) ∧
    (∀ n : Fin 5, ∀ j : Fin 2, Real.exp (bwdLog n.val j) = ((bwdLin n.val j : ℚ) : ℝ)) ∧
    (∀ n : Fin 5, ∀ j : Fin 2, |bwdLin n.val j - bwdRef n j| < 1 / 10000) :=
  ⟨bwdLog_boundary, fun n h i => bwdLog_step n h i, fun n j => bwdLog_exp n.val j,
    bwdLin_close_ref⟩

/-- Witness for C4: the backward recursion equation applied at frame 3. -/
theorem backward_pass_code_bug_witness :
    (3 : ℕ) < 4 ∧
    bwdLog 3 0 = logsumF (fun j => transLP 0 j + bwdLog 4 j + frameLP 4 j) :=
  ⟨by norm_num, backward_pass_code_bug.2.1 3 (by norm_num) 0⟩

/-- C5 counterexample: with the oracle ll n = -5n, budget 3 and threshold 1,
the improvement at iteration 1 (namely -5) is below the threshold, yet the
source loop performs a third iteration: it tests abs(change), not the
improvement, so the claimed stopping rule is false of the code. -/
theorem train_improvement_rule_counterexample :
    (fun n : ℕ => -(5 * (n : ℚ))) 1 - (fun n : ℕ => -(5 * (n : ℚ))) 0 < 1 ∧
    trainLL (fun n : ℕ => -(5 * (n : ℚ))) 3 1 = [0, -5, -10] := by
  constructor
  · norm_num
  · norm_num [trainLL, trainGo]

/-- C5 (amended): train records exactly the per-iteration log-likelihoods
up to the stop length, which is the full budget unless some first iteration
j at least 1 has abs(change from the previous iteration) below the
threshold, in which case iterations 0..j run; in particular the loop is a
total function (it never raises) and performs at most the budgeted number
of iterations. -/
theorem train_loop_characterization (ll : ℕ → ℚ) (iter : ℕ) (thresh : ℚ) :
    trainLL ll iter thresh = (List.range (trainStopLen ll thresh iter)).map ll ∧
      trainStopLen ll thresh iter ≤ iter := by
  cases iter with
  | zero => simp [trainLL, trainGo, trainStopLen]
  | succ f =>
    constructor
    · show trainGo ll thresh 0 (f + 1) = _
      have h0 : trainGo ll thresh 0 (f + 1) = ll 0 :: trainGo ll thresh 1 f := by
        show ll 0 :: _ = _
        rw [if_neg (by simp)]
      rw [h0, trainGo_char ll thresh f 1 le_rfl, List.range_eq_range']
      show ll 0 :: (List.range' 1
          (match (List.range' 1 f).find? (trainConverged ll thresh) with
            | some j => j + 1 - 1
            | none => f)).map ll =
        (List.range' 0
          ((match (List.range' 1 f).find? (trainConverged ll thresh) with
            | some j => j
            | none => f) + 1)).map ll
      cases hfind : (List.range' 1 f).find? (trainConverged ll thresh) with
      | none =>
        show ll 0 :: (List.range' 1 f).map ll = (List.range' 0 (f + 1)).map ll
        rw [List.range'_succ]
        simp
      | some j =>
        show ll 0 :: (List.range' 1 (j + 1 - 1)).map ll = (List.range' 0 (j + 1)).map ll
        have h1 : j + 1 - 1 = j := by omega
        rw [h1, List.range'_succ]
        simp
    · show (match (List.range' 1 f).find? (trainConverged ll thresh) with
        | some j => j
        | none => f) + 1 ≤ f + 1
      cases hfind : (List.range' 1 f).find? (trainConverged ll thresh) with
      | none => exact le_rfl
      | some j =>
        have := List.mem_range'_1.mp (List.mem_of_find?_eq_some hfind)
        show j + 1 ≤ f + 1
        omega

/-- C6: Setting startProb with a vector of wrong length raises the length
error, and with a correct length but a sum failing the tolerance check
raises the sum error (so the length check runs first); in either case the
object is left unchanged. -/
theorem startprob_setter_validation (m : Model) (v : List ℚ) :
    (v.length ≠ m.nstates →
      set_startprob m v = .error .length ∧ set_startprob_run m v = m) ∧
    (v.length = m.nstates → almost_equal v.sum 1 = false →
      set_startprob m v = .error .sum ∧ set_startprob_run m v = m) := by
  constructor
  · intro h
    have he : set_startprob m v = .error .length := by
      unfold set_startprob
      rw [if_pos h]
    exact ⟨he, by unfold set_startprob_run; rw [he]⟩
  · intro h1 h2
    have he : set_startprob m v = .error .sum := by
      unfold set_startprob
      rw [if_neg (by simp [h1]), if_neg (by simp [h2])]
    exact ⟨he, by unfold set_startprob_run; rw [he]⟩

/-- Witness for C6: a 2-state model rejects the length-3 vector [1, 2, 3]
with the length error and the length-2 vector [1/2, 1/4] (sum 3/4) with the
sum error, unchanged in both cases. -/
theorem startprob_setter_validation_witness :
    (([1, 2, 3] : List ℚ).length ≠ (Model.mk 2 [] []).nstates ∧
      set_startprob (Model.mk 2 [] []) [1, 2, 3] = .error .length ∧
      set_startprob_run (Model.mk 2 [] []) [1, 2, 3] = Model.mk 2 [] []) ∧
    (([1/2, 1/4] : List ℚ).length = (Model.mk 2 [] []).nstates ∧
      almost_equal ([1/2, 1/4] : List ℚ).sum 1 = false ∧
      set_startprob (Model.mk 2 [] []) [1/2, 1/4] = .error .sum ∧
      set_startprob_run (Model.mk 2 [] []) [1/2, 1/4] = Model.mk 2 [] []) := by
  have h1 : ([1, 2, 3] : List ℚ).length ≠ (Model.mk 2 [] []).nstates := by
    simp
  have hq : (([1/2, 1/4] : List ℚ).sum - 1) = -(1/4) := by norm_num
  have h2 : almost_equal ([1/2, 1/4] : List ℚ).sum 1 = false := by
    simp only [almost_equal, decide_eq_false_iff_not, hq, abs_neg, not_lt]
    rw [abs_of_nonneg (by norm_num)]
    norm_num
  have hlen : ([1/2, 1/4] : List ℚ).length = (Model.mk 2 [] []).nstates := rfl
  obtain ⟨ha, hb⟩ := (startprob_setter_validation (Model.mk 2 [] []) [1, 2, 3]).1 h1
  obtain ⟨hc, hd⟩ := (startprob_setter_validation (Model.mk 2 [] []) [1/2, 1/4]).2 hlen h2
  exact ⟨⟨h1, ha, hb⟩, ⟨hlen, h2, hc, hd⟩⟩

/-- C7: For a valid positive startProb vector and a valid positive
row-stochastic transitionMatrix, reading the parameter back after setting
it returns exactly the original values (the setter stores the log, the
getter exponentiates), so the returned startProb sums to 1 within 1e-8 and
every returned transitionMatrix row sums to 1 within 1e-8. -/
theorem params_setter_getter_roundtrip (m : Model) (v : List ℚ) (t : List (List ℚ))
    (hv : ∀ x ∈ v, 0 < x) (hlen : v.length = m.nstates)
    (hsum : almost_equal v.sum 1 = true)
    (ht : ∀ r ∈ t, ∀ x ∈ r, 0 < x) (hts : transmatShapeOk m t = true)
    (htsum : t.all (fun r => almost_equal r.sum 1) = true) :
    startprob_get (set_startprob_run m v) = v.map (Rat.cast : ℚ → ℝ) ∧
    |(startprob_get (set_startprob_run m v)).sum - 1| < 1 / 100000000 ∧
    transmat_get (set_transmat_run m t) = t.map (fun r => r.map (Rat.cast : ℚ → ℝ)) ∧
    (∀ r ∈ transmat_get (set_transmat_run m t), |r.sum - 1| < 1 / 100000000) := by
  have hrun : set_startprob_run m v =
      Model.mk m.nstates (v.map (fun x => Real.log (Rat.cast x))) m.log_transmat := by
    unfold set_startprob_run set_startprob
    rw [if_neg (by simp [hlen]), if_pos hsum]
  have hget : startprob_get (set_startprob_run m v) = v.map (Rat.cast : ℚ → ℝ) := by
    rw [hrun]
    unfold startprob_get
    rw [List.map_map]
    refine List.map_congr_left ?_
    intro x hx
    exact Real.exp_log (by exact_mod_cast hv x hx)
  have htrun : set_transmat_run m t =
      Model.mk m.nstates m.log_startprob
        (t.map (fun r => r.map (fun x => Real.log (Rat.cast x)))) := by
    unfold set_transmat_run set_transmat
    rw [if_neg (by simp [hts]), if_pos htsum]
  have htget : transmat_get (set_transmat_run m t) =
      t.map (fun r => r.map (Rat.cast : ℚ → ℝ)) := by
    rw [htrun]
    unfold transmat_get
    rw [List.map_map]
    refine List.map_congr_left ?_
    intro r hr
    show ((r.map (fun x => Real.log (Rat.cast x))).map Real.exp) = _
    rw [List.map_map]
    refine List.map_congr_left ?_
    intro x hx
    exact Real.exp_log (by exact_mod_cast ht r hr x hx)
  refine ⟨hget, ?_, htget, ?_⟩
  · rw [hget, ← Rat.cast_list_sum]
    have hq : |v.sum - 1| < 1 / 100000000 := of_decide_eq_true hsum
    have h1 : ((v.sum : ℚ) : ℝ) - 1 = ((v.sum - 1 : ℚ) : ℝ) := by push_cast; ring
    rw [h1, ← Rat.cast_abs]
    calc ((|v.sum - 1| : ℚ) : ℝ) < ((1 / 100000000 : ℚ) : ℝ) := by exact_mod_cast hq
      _ = 1 / 100000000 := by norm_num
  · rw [htget]
    intro r hr
    obtain ⟨r0, hr0, rfl⟩ := List.mem_map.mp hr
    have hq : almost_equal r0.sum 1 = true := List.all_eq_true.mp htsum r0 hr0
    have hq2 : |r0.sum - 1| < 1 / 100000000 := of_decide_eq_true hq
    rw [← Rat.cast_list_sum]
    have h1 : ((r0.sum : ℚ) : ℝ) - 1 = ((r0.sum - 1 : ℚ) : ℝ) := by push_cast; ring
    rw [h1, ← Rat.cast_abs]
    calc ((|r0.sum - 1| : ℚ) : ℝ) < ((1 / 100000000 : ℚ) : ℝ) := by exact_mod_cast hq2
      _ = 1 / 100000000 := by norm_num

/-- Witness for C7: the uniform 2-state parameters startProb [1/2, 1/2] and
transitionMatrix [[1/2, 1/2], [1/2, 1/2]] round-trip exactly. -/
theorem params_setter_getter_roundtrip_witness :
    startprob_get (set_startprob_run (Model.mk 2 [] []) [1/2, 1/2]) =
      [(1/2 : ℝ), 1/2] ∧
    transmat_get (set_transmat_run (Model.mk 2 [] []) [[1/2, 1/2], [1/2, 1/2]]) =
      [[(1/2 : ℝ), 1/2], [(1/2 : ℝ), 1/2]] := by
  have hv : ∀ x ∈ ([1/2, 1/2] : List ℚ), 0 < x := by
    intro x hx
    fin_cases hx <;> norm_num
  have hlen : ([1/2, 1/2] : List ℚ).length = (Model.mk 2 [] []).nstates := rfl
  have hsum : almost_equal ([1/2, 1/2] : List ℚ).sum 1 = true := by
    simp only [almost_equal, decide_eq_true_eq]
    norm_num
  have ht : ∀ r ∈ ([[1/2, 1/2], [1/2, 1/2]] : List (List ℚ)), ∀ x ∈ r, 0 < x := by
    intro r hr
    fin_cases hr <;> (intro x hx; fin_cases hx <;> norm_num)
  have hts : transmatShapeOk (Model.mk 2 [] []) [[1/2, 1/2], [1/2, 1/2]] = true := by
    simp [transmatShapeOk]
  have htsum : ([[1/2, 1/2], [1/2, 1/2]] : List (List ℚ)).all
      (fun r => almost_equal r.sum 1) = true := by
    simp only [List.all_cons, List.all_nil, almost_equal, decide_eq_true_eq, Bool.and_true]
    norm_num
  have h := params_setter_getter_roundtrip (Model.mk 2 [] []) [1/2, 1/2]
    [[1/2, 1/2], [1/2, 1/2]] hv hlen hsum ht hts htsum
  refine ⟨?_, ?_⟩
  · rw [h.1]
    norm_num
  · rw [h.2.2.1]
    norm_num

/-- C8: The source _prune_states returns nothing (Python None) even on the
no-pruning call of its own test, because it never returns state_idx; the
pruning policy as specified returns all state indices unchanged and in
order whenever the rank limit is absent and the beam offset is -inf. -/
theorem prune_states_code_bug :
    prune_states_code (fun _ => 0) demoFrame none ⊥ = none ∧
    (∀ ls : List ℚ → ℚ, ∀ frame : List ℚ,
      prune_states ls frame none ⊥ = List.range frame.length) :=
  ⟨rfl, prune_states_all⟩

/-- C9: With rank limit 1 the source _prune_states raises NameError (tmp is
undefined) so its test cannot pass; the histogram-based policy of the spec
returns exactly [9] on the test frame 0..9, which is the index of the
unique maximum of the frame. -/
theorem prune_rank_one_code_bug :
    prune_states_code (fun _ => 0) demoFrame (some 1) ⊥ = none ∧
    prune_states (fun _ => 0) demoFrame (some 1) ⊥ = [9] ∧
    (∀ i : Fin 10, demoFrame.getD i.val 0 ≤ demoFrame.getD 9 0) := by
  refine ⟨rfl, prune_states_rank_one, ?_⟩
  intro i
  fin_cases i <;> norm_num [demoFrame]

/-- C10: The Gaussian means setter accepts exactly the matrices of shape
(nstates, ndim), with no value-level validation; on success the getter
returns the stored values unchanged (no log transform), and on the shape
error the stored means are left unchanged. -/
theorem means_setter_shape_validation (g : GModel) (v : List (List ℚ)) :
    (meansShapeOk g v = true →
      set_means g v = .ok (GModel.mk g.nstates g.ndim v) ∧
      means_get (set_means_run g v) = v) ∧
    (meansShapeOk g v = false →
      set_means g v = .error .shape ∧ set_means_run g v = g) := by
  constructor
  · intro h
    have he : set_means g v = .ok (GModel.mk g.nstates g.ndim v) := by
      unfold set_means
      rw [if_pos h]
    exact ⟨he, by unfold set_means_run means_get; rw [he]⟩
  · intro h
    have he : set_means g v = .error .shape := by
      unfold set_means
      rw [if_neg (by simp [h])]
    exact ⟨he, by unfold set_means_run; rw [he]⟩

/-- Witness for C10: a 2-state 1-dimensional model accepts the well-shaped
matrix [[1], [2]] (the getter returns it unchanged) and rejects the empty
matrix with the shape error, leaving the stored means unchanged. -/
theorem means_setter_shape_validation_witness :
    (meansShapeOk (GModel.mk 2 1 [[0], [0]]) [[1], [2]] = true ∧
      means_get (set_means_run (GModel.mk 2 1 [[0], [0]]) [[1], [2]]) = [[1], [2]]) ∧
    (meansShapeOk (GModel.mk 2 1 [[0], [0]]) [] = false ∧
      set_means (GModel.mk 2 1 [[0], [0]]) [] = .error .shape ∧
      set_means_run (GModel.mk 2 1 [[0], [0]]) [] = GModel.mk 2 1 [[0], [0]]) := by
  have h1 : meansShapeOk (GModel.mk 2 1 [[0], [0]]) [[1], [2]] = true := by
    simp [meansShapeOk]
  have h2 : meansShapeOk (GModel.mk 2 1 [[0], [0]]) [] = false := by
    simp [meansShapeOk]
  obtain ⟨_, hb⟩ := (means_setter_shape_validation (GModel.mk 2 1 [[0], [0]]) [[1], [2]]).1 h1
  obtain ⟨hc, hd⟩ := (means_setter_shape_validation (GModel.mk 2 1 [[0], [0]]) []).2 h2
  exact ⟨⟨h1, hb⟩, ⟨h2, hc, hd⟩⟩
